import Mathlib

/-!
Verification development for the TripAdvisor scraping module
(`web_scapping/models.py`): a shallow embedding of the record types
(`Business`, `Review`), their content hashes, the Mongo store gateway
(`TripAdvisorMongoClient`), the per-page extraction routines and the
pagination loops of `TripAdvisorWebScrapper`, together with theorems about
the deduplication, error-handling and pagination behaviour.

Conventions of the embedding:
* Python strings are Lean `String`s; `datetime.date` values are `PyDate`
  records; `None` is `Option.none`.
* A Python code path that raises an exception is modelled with
  `Except Unit` (the caught-and-skipped exceptions inside the review-card
  loop collapse to `Option.none` for the card).
* `hashlib.sha256(x).hexdigest()` is modelled by `sha256Hex`, an injective
  stand-in (the identity on the serialized input): the development only
  depends on the digest being a function of its input, and collision
  freeness is the standing assumption about the real digest.
* The Mongo collection is a list of documents (association lists of keys to
  values) plus an object-id counter; `find_one`/`insert_one`/`find` follow
  the pymongo calls made by the source.
-/

namespace TripAdvisor

/-! ## Python string primitives used by the source -/

/-- Characters stripped by Python `str.strip()` and matched by `\s`. -/
def pyIsSpace (c : Char) : Bool :=
  c = ' ' || c = '\t' || c = '\n' || c = '\r' || c = '\x0b' || c = '\x0c'

/-- Python `str.strip()`: drop leading and trailing whitespace. -/
def pyStrip (s : String) : String :=
  String.mk (((s.toList.dropWhile pyIsSpace).reverse.dropWhile pyIsSpace).reverse)

/-- Does `cs` start with the pattern `ps`? -/
def listStartsWith : List Char → List Char → Bool
  | [], _ => true
  | _ :: _, [] => false
  | p :: ps, c :: cs => p = c && listStartsWith ps cs

/-- The prefix of the input up to (excluding) the first occurrence of the
nonempty pattern `sep`. -/
def takeUntilInfix (sep : List Char) : List Char → List Char
  | [] => []
  | c :: cs => if listStartsWith sep (c :: cs) then [] else c :: takeUntilInfix sep cs

/-- Python `s.split(sep)[0]` for a nonempty separator: the part of `s`
before the first occurrence of `sep` (all of `s` when `sep` does not
occur). -/
def pySplitFirst (sep s : String) : String :=
  String.mk (takeUntilInfix sep.toList s.toList)

/-- One fuelled step list of Python `str.replace`: replace every
non-overlapping occurrence of the nonempty pattern, scanning left to right.
Each step consumes at least one character, so fuel `length + 1` computes the
fixpoint. -/
def replaceFuel (pat rep : List Char) : Nat → List Char → List Char
  | _, [] => []
  | 0, cs => cs
  | fuel + 1, c :: cs =>
      if listStartsWith pat (c :: cs) && decide (0 < pat.length) then
        rep ++ replaceFuel pat rep fuel ((c :: cs).drop pat.length)
      else c :: replaceFuel pat rep fuel cs

/-- Python `s.replace(pat, rep)` for a nonempty pattern. -/
def pyReplace (s pat rep : String) : String :=
  String.mk (replaceFuel pat.toList rep.toList (s.toList.length + 1) s.toList)

/-- Python `s.split(".", 1)[-1]`: everything after the first `'.'`, or all of
`s` when there is no dot. -/
def afterFirstDot (s : String) : String :=
  match s.toList.dropWhile (fun c => c ≠ '.') with
  | [] => s
  | _ :: rest => String.mk rest

/-! ## `json.dumps(..., sort_keys=True)` on the dictionaries the source hashes -/

/-- An opening brace as string data. -/
def lbrace : String := "\x7b"

/-- A closing brace as string data. -/
def rbrace : String := "\x7d"

/-- Lower-case hex digit of `n % 16`. -/
def hexDigit (n : Nat) : Char :=
  if n < 10 then Char.ofNat (48 + n) else Char.ofNat (87 + n % 16)

/-- Four lower-case hex digits of `n` (for `\uXXXX` escapes). -/
def natToHex4 (n : Nat) : String :=
  String.mk [hexDigit (n / 4096 % 16), hexDigit (n / 256 % 16),
             hexDigit (n / 16 % 16), hexDigit (n % 16)]

/-- JSON escaping of one character as performed by `json.dumps` with its
default `ensure_ascii=True`. -/
def jsonEscapeChar (c : Char) : String :=
  if c = '"' then "\\\""
  else if c = '\\' then "\\\\"
  else if c = '\n' then "\\n"
  else if c = '\t' then "\\t"
  else if c = '\r' then "\\r"
  else if c = '\x08' then "\\b"
  else if c = '\x0c' then "\\f"
  else if c.toNat < 32 || c.toNat > 126 then
    if c.toNat ≤ 65535 then "\\u" ++ natToHex4 c.toNat
    else
      "\\u" ++ natToHex4 (55296 + (c.toNat - 65536) / 1024) ++
      "\\u" ++ natToHex4 (56320 + (c.toNat - 65536) % 1024)
  else String.singleton c

/-- JSON string literal for `s`, per `json.dumps`. -/
def jsonStr (s : String) : String :=
  "\"" ++ String.join (s.toList.map jsonEscapeChar) ++ "\""

/-- JSON rendering of a Python `int`. -/
def jsonInt (i : Int) : String := toString i

/-- One `"key": value` member of a JSON object. -/
def jsonMember (k v : String) : String := jsonStr k ++ ": " ++ v

/-- A JSON object from already-rendered members, with `json.dumps`'s default
`", "` separator. -/
def jsonObj (members : List String) : String :=
  lbrace ++ String.intercalate ", " members ++ rbrace

/-- Model of `hashlib.sha256(s.encode()).hexdigest()`: an injective digest
stand-in (the identity on the serialized input); the development relies only
on the digest being a pure function of the serialization, which is exactly
what collision resistance grants the real digest. -/
def sha256Hex (s : String) : String := s

/-! ## Dates -/

/-- A Python `datetime.date`. -/
structure PyDate where
  year : Nat
  month : Nat
  day : Nat
deriving DecidableEq, Repr

/-- `str(d)` for an optional date: ISO text, or the text `"None"`. -/
def pyStrOptDate : Option PyDate → String
  | none => "None"
  | some d =>
      String.mk [hexDigit (d.year / 1000 % 10), hexDigit (d.year / 100 % 10),
                 hexDigit (d.year / 10 % 10), hexDigit (d.year % 10)] ++ "-" ++
      String.mk [hexDigit (d.month / 10 % 10), hexDigit (d.month % 10)] ++ "-" ++
      String.mk [hexDigit (d.day / 10 % 10), hexDigit (d.day % 10)]

/-! ## The record types (`Business`, `Review`) and their hashes -/

/-- `MongoDocumentType.BUSINESS`. -/
def MongoDocumentTypeBUSINESS : String := "business"

/-- `MongoDocumentType.REVIEW`. -/
def MongoDocumentTypeREVIEW : String := "review"

/-- `Business` of `models.py`. -/
structure Business where
  business_name : String
  business_url : String
deriving DecidableEq, Repr

/-- The serialization hashed by `Business.get_object_hash`:
`json.dumps(self, default=lambda o: o.__dict__, sort_keys=True)`, whose sorted
keys are `business_name` then `business_url`. -/
def Business.hashInput (b : Business) : String :=
  jsonObj [jsonMember "business_name" (jsonStr b.business_name),
           jsonMember "business_url" (jsonStr b.business_url)]

/-- `Business.get_object_hash`. -/
def Business.get_object_hash (b : Business) : String :=
  sha256Hex b.hashInput

/-- `Review` of `models.py`.  `review_rating` is an `Int` because the values
the source actually stores there are Python ints (`-1` default,
`int(float(...))` from extraction). -/
structure Review where
  business : Business
  reviewer : String
  review_date : Option PyDate
  visit_data : Option PyDate
  review_title : String
  review_text : String
  review_rating : Int
deriving DecidableEq, Repr

/-- The serialization hashed by `Review.get_object_hash`: `json.dumps` of the
five-key `hash_data` dict with `sort_keys=True`; the sorted key order is
`business`, `review_rating`, `review_text`, `review_title`, `reviewer`. -/
def Review.hashInput (r : Review) : String :=
  jsonObj [jsonMember "business" (jsonStr r.business.business_name),
           jsonMember "review_rating" (jsonInt r.review_rating),
           jsonMember "review_text" (jsonStr r.review_text),
           jsonMember "review_title" (jsonStr r.review_title),
           jsonMember "reviewer" (jsonStr r.reviewer)]

/-- `Review.get_object_hash`. -/
def Review.get_object_hash (r : Review) : String :=
  sha256Hex r.hashInput

/-! ## The Mongo store model and `TripAdvisorMongoClient` -/

/-- A Mongo document value: string, int, or an object id minted by the
driver. -/
inductive MVal where
  | s (v : String)
  | i (v : Int)
  | oid (n : Nat)
deriving DecidableEq, Repr

/-- A Mongo document: keys with values, in insertion order. -/
abbrev MDoc := List (String × MVal)

/-- The collection: stored documents in natural (insertion) order plus the
driver's object-id counter. -/
structure Collection where
  nextId : Nat
  docs : List MDoc
deriving DecidableEq, Repr

/-- `collection.insert_one(d)`: the driver prepends a fresh `_id` and appends
the document. -/
def Collection.insert_one (c : Collection) (d : MDoc) : Collection :=
  ⟨c.nextId + 1, c.docs ++ [("_id", MVal.oid c.nextId) :: d]⟩

/-- `collection.find_one(filter)` where the filter is an equality match on a
single key: the first stored document whose `k` field equals `v`. -/
def Collection.find_one_eq (c : Collection) (k : String) (v : MVal) : Option MDoc :=
  c.docs.find? (fun d => d.lookup k == some v)

/-- `Business.to_mongo_document`. -/
def Business.to_mongo_document (b : Business) : MDoc :=
  [("unique_id", MVal.s b.get_object_hash),
   ("type", MVal.s MongoDocumentTypeBUSINESS),
   ("business_name", MVal.s b.business_name),
   ("business_url", MVal.s b.business_url)]

/-- `Review.to_mongo_document`. -/
def Review.to_mongo_document (r : Review) : MDoc :=
  [("unique_id", MVal.s r.get_object_hash),
   ("type", MVal.s MongoDocumentTypeREVIEW),
   ("reviewer", MVal.s r.reviewer),
   ("business_reviewed", MVal.s r.business.business_name),
   ("review_date", MVal.s (pyStrOptDate r.review_date)),
   ("review_title", MVal.s r.review_title),
   ("review_text", MVal.s r.review_text),
   ("review_rating", MVal.i r.review_rating),
   ("visit_data", MVal.s (pyStrOptDate r.visit_data))]

/-- `TripAdvisorMongoClient.insert_business`: `find_one({"unique_id": hash})`,
return `False` when present, otherwise `insert_one` and return `True`. -/
def insert_business (c : Collection) (b : Business) : Bool × Collection :=
  match c.find_one_eq "unique_id" (MVal.s b.get_object_hash) with
  | some _ => (false, c)
  | none => (true, c.insert_one b.to_mongo_document)

/-- `TripAdvisorMongoClient.insert_review`: same pattern as
`insert_business`, with the review hash and document. -/
def insert_review (c : Collection) (r : Review) : Bool × Collection :=
  match c.find_one_eq "unique_id" (MVal.s r.get_object_hash) with
  | some _ => (false, c)
  | none => (true, c.insert_one r.to_mongo_document)

/-- The dict comprehension `{k: v for k, v in doc.items() if k not in
['_id', 'unique_id', 'type']}`. -/
def stripDoc (d : MDoc) : MDoc :=
  d.filter (fun kv => !(kv.1 == "_id" || kv.1 == "unique_id" || kv.1 == "type"))

/-- `TripAdvisorMongoClient.get_businesses`: `find({"type": "business"})`
then strip the metadata keys from each document. -/
def get_businesses (c : Collection) : List MDoc :=
  ((c.docs.filter (fun d => d.lookup "type" == some (MVal.s MongoDocumentTypeBUSINESS))).map
    stripDoc)

/-- `TripAdvisorMongoClient.get_reviews`: `find({"type": "review"})` then
strip the metadata keys from each document. -/
def get_reviews (c : Collection) : List MDoc :=
  ((c.docs.filter (fun d => d.lookup "type" == some (MVal.s MongoDocumentTypeREVIEW))).map
    stripDoc)

/-! ## `datetime.strptime` for the two formats the source uses

CPython's `_strptime` compiles a format string to a regex: runs of whitespace
in the format become `\s+`, `%b`/`%B` become a case-insensitive alternation of
the locale month names, `%d` becomes `3[01]|[12]\d|0[1-9]|[1-9]| [1-9]`,
`%Y` becomes exactly four digits, and the whole input must be consumed.
Fields the format omits default to year 1900, month 1, day 1; the resulting
`datetime` constructor validates the day against the month. -/

/-- Lower-cased abbreviated month names (`%b`). -/
def monthAbbrevs : List String :=
  ["jan", "feb", "mar", "apr", "may", "jun", "jul", "aug", "sep", "oct", "nov", "dec"]

/-- Lower-cased full month names (`%B`). -/
def monthNames : List String :=
  ["january", "february", "march", "april", "may", "june",
   "july", "august", "september", "october", "november", "december"]

/-- Try the month names in order (1-based numbering from `i`), matching
case-insensitively at the head of `cs`; return the month number and the rest
of the input.  No month name is a prefix of another, so the alternation order
is immaterial. -/
def matchMonthFrom (cs : List Char) : Nat → List String → Option (Nat × List Char)
  | _, [] => none
  | i, nm :: rest =>
      if listStartsWith nm.toList (cs.map Char.toLower) then some (i, cs.drop nm.length)
      else matchMonthFrom cs (i + 1) rest

/-- Match one month name from `names` at the head of `cs`. -/
def matchMonth (names : List String) (cs : List Char) : Option (Nat × List Char) :=
  matchMonthFrom cs 1 names

/-- `\s+`: at least one whitespace character, consumed greedily. -/
def skipSpaces1 (cs : List Char) : Option (List Char) :=
  match cs with
  | c :: rest => if pyIsSpace c then some (rest.dropWhile pyIsSpace) else none
  | [] => none

/-- Value of a digit character. -/
def digitVal (c : Char) : Nat := c.toNat - 48

/-- `%Y`: exactly four digits. -/
def parseYear4 (cs : List Char) : Option (Nat × List Char) :=
  match cs with
  | a :: b :: c :: d :: rest =>
      if a.isDigit && b.isDigit && c.isDigit && d.isDigit then
        some (digitVal a * 1000 + digitVal b * 100 + digitVal c * 10 + digitVal d, rest)
      else none
  | _ => none

/-- `%d` as `_strptime` matches it in `"%B %d, %Y"`: the two-digit
alternatives `3[01]`, `[12]\d`, `0[1-9]` when two digits are available,
otherwise a single digit `[1-9]`.  (The ` [1-9]` alternative is unreachable
here because the format places `\s+` immediately before `%d`.) -/
def parseDay (cs : List Char) : Option (Nat × List Char) :=
  match cs with
  | a :: b :: rest =>
      if a.isDigit && b.isDigit then
        if (a = '3' && (b = '0' || b = '1')) || a = '1' || a = '2' || (a = '0' && b ≠ '0') then
          some (digitVal a * 10 + digitVal b, rest)
        else none
      else if a.isDigit && a ≠ '0' then some (digitVal a, b :: rest)
      else none
  | [a] => if a.isDigit && a ≠ '0' then some (digitVal a, []) else none
  | [] => none

/-- Gregorian leap year, as `datetime` checks it. -/
def isLeapYear (y : Nat) : Bool :=
  y % 4 = 0 && (y % 100 ≠ 0 || y % 400 = 0)

/-- Days in a month, as `datetime` checks it. -/
def daysInMonth (y m : Nat) : Nat :=
  if m = 2 then (if isLeapYear y then 29 else 28)
  else if m = 4 || m = 6 || m = 9 || m = 11 then 30
  else 31

/-- `datetime.strptime(s, "%b %Y").date()`: abbreviated month, whitespace,
four-digit year, nothing left over; the day defaults to 1.  `datetime`
additionally requires the year to be at least 1. -/
def strptimeAbbrevMonthYear (s : String) : Option PyDate :=
  match matchMonth monthAbbrevs s.toList with
  | none => none
  | some (m, rest) =>
      match skipSpaces1 rest with
      | none => none
      | some rest2 =>
          match parseYear4 rest2 with
          | some (y, []) => if 1 ≤ y then some ⟨y, m, 1⟩ else none
          | _ => none

/-- `datetime.strptime(s, "%B %d, %Y").date()`: full month, whitespace, day,
a literal comma, whitespace, four-digit year, nothing left over; `datetime`
then validates the day against the month. -/
def strptimeFullMonthDayYear (s : String) : Option PyDate :=
  match matchMonth monthNames s.toList with
  | none => none
  | some (m, rest) =>
      match skipSpaces1 rest with
      | none => none
      | some rest2 =>
          match parseDay rest2 with
          | none => none
          | some (d, rest3) =>
              match rest3 with
              | ',' :: rest4 =>
                  match skipSpaces1 rest4 with
                  | none => none
                  | some rest5 =>
                      match parseYear4 rest5 with
                      | some (y, []) =>
                          if 1 ≤ y && d ≤ daysInMonth y m then some ⟨y, m, d⟩ else none
                      | _ => none
              | _ => none

/-! ## The rating regex `([\d.]+)\s*of` -/

/-- Character class `[\d.]`. -/
def isDigitOrDot (c : Char) : Bool := c.isDigit || c = '.'

/-- `re.search(r'([\d.]+)\s*of', s).group(1)`: scan left to right; at each
position a greedy nonempty run of `[\d.]` followed by `\s*` and the literal
`of` is a match, whose group 1 is the run.  (Backtracking inside the run
never helps: a shortened run is still followed by a `[\d.]` character, which
`\s*of` cannot match, so the greedy run is the only candidate at each start
position.) -/
def ratingSearch : List Char → Option (List Char)
  | [] => none
  | c :: cs =>
      if isDigitOrDot c then
        let run := (c :: cs).takeWhile isDigitOrDot
        let rest := ((c :: cs).dropWhile isDigitOrDot).dropWhile pyIsSpace
        if listStartsWith ['o', 'f'] rest then some run else ratingSearch cs
      else ratingSearch cs

/-- `int(float(s))` for a string drawn from `[\d.]+`: `float` accepts it when
it has at most one dot and at least one digit, and truncation keeps the
digits before the dot.  (The model evaluates the decimal exactly; the labels
at issue are short enough that the binary `float` value has the same integer
part.) -/
def intFloatTrunc (cs : List Char) : Option Int :=
  if cs.count '.' ≤ 1 && cs.any Char.isDigit then
    some (Int.ofNat ((cs.takeWhile (fun c => c ≠ '.')).foldl
      (fun n c => n * 10 + digitVal c) 0))
  else none

/-- The rating pipeline applied to an `aria-label` string:
`int(float(re.search(r'([\d.]+)\s*of', aria).group(1)))`, with a failed
search or a bad float collapsing to `none` (the exception is caught by the
per-card handler). -/
def ratingFromAria (aria : String) : Option Int :=
  match ratingSearch aria.toList with
  | none => none
  | some run => intFloatTrunc run

/-! ## Review-card extraction (`get_all_reviews_in_page`) -/

/-- The review-date pipeline: `.text.strip()`, drop everything from the
first `" • "` on, then `strptime(..., "%b %Y").date()`. -/
def reviewDatePipeline (t : String) : Option PyDate :=
  strptimeAbbrevMonthYear (pySplitFirst " • " (pyStrip t))

/-- The visit-date pipeline: `.text.strip()`, `.replace("Written ", "")`
(all occurrences), then `strptime(..., "%B %d, %Y").date()`. -/
def visitDatePipeline (t : String) : Option PyDate :=
  strptimeFullMonthDayYear (pyReplace (pyStrip t) "Written " "")

/-- One candidate review card, as the chain of `bs4` lookups the source
performs sees it.  Each field is the text (or attribute) produced by the
corresponding lookup; `none` means the lookup chain raised
(`find` returned `None` and the subsequent attribute access failed).
`ratingSvg` is two-layered: the outer `none` is a missing `svg` element, the
inner `none` a missing `aria-label` attribute (`.get` returns `None`, which
`re.search` then rejects). -/
structure Card where
  username : Option String
  dateDivText : Option String
  titleText : Option String
  bodyText : Option String
  ratingSvg : Option (Option String)
  visitText : Option String
deriving DecidableEq, Repr

/-- The `try` block of the card loop: every lookup and parse must succeed,
otherwise the card is skipped (`except Exception: continue`).  On success the
`Review` is built from the extracted fields and the owning business. -/
def extractCard (business : Business) (c : Card) : Option Review := do
  let u ← c.username
  let rdText ← c.dateDivText
  let rdate ← reviewDatePipeline rdText
  let title ← c.titleText
  let body ← c.bodyText
  let svg ← c.ratingSvg
  let aria ← svg
  let rating ← ratingFromAria aria
  let vt ← c.visitText
  let vdate ← visitDatePipeline vt
  some ⟨business, u, some rdate, some vdate, pyStrip title, pyStrip body, rating⟩

/-- The business dict handed to `get_and_store_reviews` (one element of the
`businesses: list[dict]` argument); the two keys the source reads. -/
structure BizDict where
  business_name : String
  business_url : String
deriving DecidableEq, Repr

/-- An `a` element as the pagination code sees it: its exact `class`
attribute string, its `aria-label` attribute (absent access raises
`KeyError`) and its `href` attribute (absent access raises `KeyError`). -/
structure Arrow where
  cls : String
  ariaLabel : Option String
  href : Option String
deriving DecidableEq, Repr

/-- A rendered review page: the review cards found by
`find_all('div', class_='_c', attrs={'data-automation': 'reviewCard'})` and
the `a` elements of the page (searched for pagination arrows). -/
structure RPage where
  reviewCards : List Card
  arrows : List Arrow
deriving DecidableEq, Repr

/-- `get_all_reviews_in_page(current_page, business)`: each card is
processed by the `try` block; failed cards are skipped, successful ones
become `Review`s owned by `Business(business['business_name'],
business['business_url'])`. -/
def get_all_reviews_in_page (biz : BizDict) (page : RPage) : List Review :=
  page.reviewCards.filterMap (extractCard ⟨biz.business_name, biz.business_url⟩)

/-! ## The pagination driver (`TripAdvisorWebScrapper`) -/

/-- `self.TRIP_ADVISOR_URL`. -/
def TRIP_ADVISOR_URL : String := "https://www.tripadvisor.com"

/-- The exact class string both crawl methods search pagination arrows by. -/
def next_page_arrow_class : String := "BrOJk u j z _F wSSLS tIqAi unMkR"

/-- The `for element in next_or_prev_arrows` loop of `find_next_page_arrow`:
return the first arrow whose `aria-label` is `"Next page"`; an arrow with no
`aria-label` attribute raises `KeyError`. -/
def findNextArrowLoop : List Arrow → Except Unit (Option Arrow)
  | [] => Except.ok none
  | a :: rest =>
      match a.ariaLabel with
      | none => Except.error ()
      | some l => if l = "Next page" then Except.ok (some a) else findNextArrowLoop rest

/-- `find_next_page_arrow(current_page)`: `find_all("a",
class_=next_page_arrow_class)` (an exact match on the class attribute
string), then scan for the `"Next page"` label. -/
def find_next_page_arrow (arrows : List Arrow) : Except Unit (Option Arrow) :=
  findNextArrowLoop (arrows.filter (fun a => a.cls == next_page_arrow_class))

/-- A business listing element (`find_all("div", class_=business_class)`
result): `divDivText` is `element.div.div.text` (`none` when the nested
`div` chain is missing and the access raises), `aHref` is
`element.a.get('href')` (`none` when the `a` element is missing or has no
`href`; either way the subsequent use raises). -/
structure BElem where
  divDivText : Option String
  aHref : Option String
deriving DecidableEq, Repr

/-- A rendered listing page. -/
structure BPage where
  businessElems : List BElem
  arrows : List Arrow
deriving DecidableEq, Repr

/-- One element of the `get_all_business_in_page` loop body:
`Business(business_name=element.div.div.text.split('.', 1)[-1].strip(),
business_url=self.TRIP_ADVISOR_URL + element.a.get('href'))`, raising when a
lookup failed. -/
def extractBusinessElem (e : BElem) : Except Unit Business :=
  match e.divDivText, e.aHref with
  | some t, some h => Except.ok ⟨pyStrip (afterFirstDot t), TRIP_ADVISOR_URL ++ h⟩
  | _, _ => Except.error ()

/-- The `for element in businesses_in_page` loop over listing elements:
build the whole list, raising at the first malformed element. -/
def extractBusinessList : List BElem → Except Unit (List Business)
  | [] => Except.ok []
  | e :: rest =>
      match extractBusinessElem e with
      | Except.error () => Except.error ()
      | Except.ok b =>
          match extractBusinessList rest with
          | Except.error () => Except.error ()
          | Except.ok bs => Except.ok (b :: bs)

/-- `get_all_business_in_page(current_page)`: there is no per-element
handler here, unlike the review-card loop, so one malformed element aborts
the page (and, caught by the loop's `except`, the whole crawl). -/
def get_all_business_in_page (p : BPage) : Except Unit (List Business) :=
  extractBusinessList p.businessElems

/-- The browser-plus-site world for the listing crawl: which URL renders
which page.  `web_driver.get` on an unknown URL models a navigation
failure. -/
structure BWorld where
  pages : List (String × BPage)
deriving DecidableEq, Repr

/-- `web_driver.get(url)` followed by parsing `page_source`. -/
def fetchB (w : BWorld) (u : String) : Except Unit BPage :=
  match w.pages.lookup u with
  | some p => Except.ok p
  | none => Except.error ()

/-- The world for the review crawl. -/
structure RWorld where
  pages : List (String × RPage)
deriving DecidableEq, Repr

/-- `web_driver.get(url)` followed by parsing `page_source`, review side. -/
def fetchR (w : RWorld) (u : String) : Except Unit RPage :=
  match w.pages.lookup u with
  | some p => Except.ok p
  | none => Except.error ()

/-- How an invocation of the listing crawl loop ended: `finished` is the
`break` on a missing next arrow, `errored` the `break` inside `except
Exception`, `fuelOut` only a bound of the model (the Python loop is
`while True`). -/
inductive CrawlExit where
  | finished
  | errored
  | fuelOut
deriving DecidableEq, Repr

/-- The `while True` loop of `get_and_store_businesses`, carrying the page
currently rendered in the driver, the accumulated `businesses` list, the
store and the trace of successfully fetched URLs.  Any exception in the body
(`get_all_business_in_page`, the arrow scan, the missing-`href` access, or
the navigation to the next URL) is caught and breaks the loop; the records
appended before the exception are kept. -/
def crawlB (w : BWorld) : Nat → BPage → List Business → Collection → List String →
    List Business × Collection × List String × CrawlExit
  | 0, _, acc, col, tr => (acc, col, tr, CrawlExit.fuelOut)
  | fuel + 1, page, acc, col, tr =>
      match get_all_business_in_page page with
      | Except.error () => (acc, col, tr, CrawlExit.errored)
      | Except.ok found =>
          let acc2 := acc ++ found
          let col2 := found.foldl (fun c b => (insert_business c b).2) col
          match find_next_page_arrow page.arrows with
          | Except.error () => (acc2, col2, tr, CrawlExit.errored)
          | Except.ok none => (acc2, col2, tr, CrawlExit.finished)
          | Except.ok (some a) =>
              match a.href with
              | none => (acc2, col2, tr, CrawlExit.errored)
              | some h =>
                  match fetchB w (TRIP_ADVISOR_URL ++ h) with
                  | Except.error () => (acc2, col2, tr, CrawlExit.errored)
                  | Except.ok p2 =>
                      crawlB w fuel p2 acc2 col2 (tr ++ [TRIP_ADVISOR_URL ++ h])

/-- `get_and_store_businesses(start_url)`: the initial `web_driver.get` is
outside the `try`, so a failure there propagates to the caller; afterwards
the guarded loop runs. -/
def get_and_store_businesses (w : BWorld) (fuel : Nat) (col : Collection)
    (start_url : String) :
    Except Unit (List Business × Collection × List String × CrawlExit) :=
  match fetchB w start_url with
  | Except.error () => Except.error ()
  | Except.ok p => Except.ok (crawlB w fuel p [] col [start_url])

/-- The inner `while True` loop of `get_and_store_reviews` for one business.
There is no `try` here: an arrow without `aria-label`, a next arrow without
`href`, or a failed navigation propagates as an exception.  The returned
`Bool` is true when the loop ended by `break` (model fuel permitting). -/
def crawlR (w : RWorld) (biz : BizDict) : Nat → RPage → List Review → Collection →
    List String → Except Unit (List Review × Collection × List String × Bool)
  | 0, _, acc, col, tr => Except.ok (acc, col, tr, false)
  | fuel + 1, page, acc, col, tr =>
      let found := get_all_reviews_in_page biz page
      let col2 := found.foldl (fun c r => (insert_review c r).2) col
      let acc2 := acc ++ found
      match find_next_page_arrow page.arrows with
      | Except.error () => Except.error ()
      | Except.ok none => Except.ok (acc2, col2, tr, true)
      | Except.ok (some a) =>
          match a.href with
          | none => Except.error ()
          | some h =>
              match fetchR w (TRIP_ADVISOR_URL ++ h) with
              | Except.error () => Except.error ()
              | Except.ok p2 =>
                  crawlR w biz fuel p2 acc2 col2 (tr ++ [TRIP_ADVISOR_URL ++ h])

/-- The outer `for business in businesses` loop of `get_and_store_reviews`:
navigate to the business URL (uncaught), run the inner loop (uncaught),
continue with the next business. -/
def reviewsOuter (w : RWorld) (fuel : Nat) :
    List BizDict → List Review → Collection → List String →
    Except Unit (List Review × Collection × List String)
  | [], acc, col, tr => Except.ok (acc, col, tr)
  | biz :: rest, acc, col, tr =>
      match fetchR w biz.business_url with
      | Except.error () => Except.error ()
      | Except.ok p =>
          match crawlR w biz fuel p acc col (tr ++ [biz.business_url]) with
          | Except.error () => Except.error ()
          | Except.ok (acc2, col2, tr2, _) => reviewsOuter w fuel rest acc2 col2 tr2

/-- `get_and_store_reviews(businesses)`. -/
def get_and_store_reviews (w : RWorld) (fuel : Nat) (col : Collection)
    (businesses : List BizDict) : Except Unit (List Review × Collection × List String) :=
  reviewsOuter w fuel businesses [] col []

/-! ## Chain hypotheses describing a well-formed paginated sequence -/

/-- The page's listing elements all extract (the body's first statement does
not raise). -/
def pageExtractsOk (p : BPage) : Prop :=
  ∃ found, get_all_business_in_page p = Except.ok found

/-- The listing records of a page, with an erroring page contributing
nothing. -/
def pageExtractOrNil (p : BPage) : List Business :=
  match get_all_business_in_page p with
  | Except.ok found => found
  | Except.error () => []

/-- The concatenated listing records of a sequence of pages. -/
def pagesExtract (ps : List BPage) : List Business :=
  (ps.map pageExtractOrNil).flatten

/-- `BChain w u us p ps`: in world `w`, URL `u` renders page `p`, the URLs
`us` render the pages `ps`, every page's listings extract, each page's
navigation arrows yield a `"Next page"` arrow whose `href` resolves (with
the site prefix) to the next URL of the sequence, and the last page's arrows
yield no `"Next page"` arrow. -/
inductive BChain (w : BWorld) : String → List String → BPage → List BPage → Prop
  | last (u : String) (p : BPage) :
      fetchB w u = Except.ok p →
      pageExtractsOk p →
      find_next_page_arrow p.arrows = Except.ok none →
      BChain w u [] p []
  | step (u u2 : String) (us : List String) (p p2 : BPage) (ps : List BPage)
      (a : Arrow) (h : String) :
      fetchB w u = Except.ok p →
      pageExtractsOk p →
      find_next_page_arrow p.arrows = Except.ok (some a) →
      a.href = some h →
      TRIP_ADVISOR_URL ++ h = u2 →
      BChain w u2 us p2 ps →
      BChain w u (u2 :: us) p (p2 :: ps)

/-- `BErrChain w u us p ps`: like `BChain`, but the last page's processing
raises (its listing extraction fails) instead of ending the pagination. -/
inductive BErrChain (w : BWorld) : String → List String → BPage → List BPage → Prop
  | last (u : String) (p : BPage) :
      fetchB w u = Except.ok p →
      get_all_business_in_page p = Except.error () →
      BErrChain w u [] p []
  | step (u u2 : String) (us : List String) (p p2 : BPage) (ps : List BPage)
      (a : Arrow) (h : String) :
      fetchB w u = Except.ok p →
      pageExtractsOk p →
      find_next_page_arrow p.arrows = Except.ok (some a) →
      a.href = some h →
      TRIP_ADVISOR_URL ++ h = u2 →
      BErrChain w u2 us p2 ps →
      BErrChain w u (u2 :: us) p (p2 :: ps)

/-! ## Store lemmas -/

/-- Number of stored documents carrying a given identity hash. -/
def countHash (c : Collection) (hs : String) : Nat :=
  (c.docs.filter (fun d => d.lookup "unique_id" == some (MVal.s hs))).length

/-- The store holds at most one document per identity hash. -/
def noDupHash (c : Collection) : Prop :=
  ∀ hs : String, countHash c hs ≤ 1

/-- The document inserted for a business carries its hash under
`unique_id`. -/
lemma lookup_unique_id_business (n : Nat) (b : Business) :
    ((("_id", MVal.oid n) :: b.to_mongo_document).lookup "unique_id") =
      some (MVal.s b.get_object_hash) := rfl

/-- The document inserted for a review carries its hash under
`unique_id`. -/
lemma lookup_unique_id_review (n : Nat) (r : Review) :
    ((("_id", MVal.oid n) :: r.to_mongo_document).lookup "unique_id") =
      some (MVal.s r.get_object_hash) := rfl

/-- A failed hash probe means no stored document carries the hash. -/
lemma countHash_eq_zero_of_find_none {col : Collection} {hs : String}
    (h : col.find_one_eq "unique_id" (MVal.s hs) = none) : countHash col hs = 0 := by
  have hall := List.find?_eq_none.mp h
  unfold countHash
  rw [List.length_eq_zero]
  exact List.filter_eq_nil_iff.mpr hall

/-- Inserting a business document adds exactly one document with its hash
and none with any other hash. -/
lemma countHash_insert_one_business (col : Collection) (b : Business) (hs : String) :
    countHash (col.insert_one b.to_mongo_document) hs =
      countHash col hs + (if hs = b.get_object_hash then 1 else 0) := by
  unfold countHash Collection.insert_one
  rw [List.filter_append, List.length_append]
  by_cases heq : hs = b.get_object_hash
  · subst heq
    simp [List.filter, lookup_unique_id_business]
  · have hne : (MVal.s b.get_object_hash == MVal.s hs) = false := by
      simp [Ne.symm heq]
    simp [List.filter, lookup_unique_id_business, hne, heq]

/-- Inserting a review document adds exactly one document with its hash and
none with any other hash. -/
lemma countHash_insert_one_review (col : Collection) (r : Review) (hs : String) :
    countHash (col.insert_one r.to_mongo_document) hs =
      countHash col hs + (if hs = r.get_object_hash then 1 else 0) := by
  unfold countHash Collection.insert_one
  rw [List.filter_append, List.length_append]
  by_cases heq : hs = r.get_object_hash
  · subst heq
    simp [List.filter, lookup_unique_id_review]
  · have hne : (MVal.s r.get_object_hash == MVal.s hs) = false := by
      simp [Ne.symm heq]
    simp [List.filter, lookup_unique_id_review, hne, heq]

/-- `insert_business` preserves hash uniqueness of the store. -/
lemma noDupHash_insert_business (col : Collection) (b : Business)
    (h : noDupHash col) : noDupHash (insert_business col b).2 := by
  cases hfind : col.find_one_eq "unique_id" (MVal.s b.get_object_hash) with
  | some d => simpa [insert_business, hfind] using h
  | none =>
      intro hs
      simp only [insert_business, hfind]
      rw [countHash_insert_one_business]
      by_cases heq : hs = b.get_object_hash
      · subst heq
        rw [countHash_eq_zero_of_find_none hfind]
        simp
      · simpa [heq] using h hs

/-- `insert_review` preserves hash uniqueness of the store. -/
lemma noDupHash_insert_review (col : Collection) (r : Review)
    (h : noDupHash col) : noDupHash (insert_review col r).2 := by
  cases hfind : col.find_one_eq "unique_id" (MVal.s r.get_object_hash) with
  | some d => simpa [insert_review, hfind] using h
  | none =>
      intro hs
      simp only [insert_review, hfind]
      rw [countHash_insert_one_review]
      by_cases heq : hs = r.get_object_hash
      · subst heq
        rw [countHash_eq_zero_of_find_none hfind]
        simp
      · simpa [heq] using h hs

/-- An absent hash makes the dedup probe of `insert_business` fail. -/
lemma find_none_of_all_business {col : Collection} {b : Business}
    (h : ∀ d ∈ col.docs, ¬ d.lookup "unique_id" = some (MVal.s b.get_object_hash)) :
    col.find_one_eq "unique_id" (MVal.s b.get_object_hash) = none := by
  refine List.find?_eq_none.mpr (fun d hd => ?_)
  simpa using h d hd

/-- An absent hash makes the dedup probe of `insert_review` fail. -/
lemma find_none_of_all_review {col : Collection} {r : Review}
    (h : ∀ d ∈ col.docs, ¬ d.lookup "unique_id" = some (MVal.s r.get_object_hash)) :
    col.find_one_eq "unique_id" (MVal.s r.get_object_hash) = none := by
  refine List.find?_eq_none.mpr (fun d hd => ?_)
  simpa using h d hd

/-- After `insert_one` of a business document, the dedup probe for its hash
succeeds. -/
lemma find_some_after_insert_business {col : Collection} (b : Business)
    (h : col.find_one_eq "unique_id" (MVal.s b.get_object_hash) = none) :
    (col.insert_one b.to_mongo_document).find_one_eq "unique_id"
        (MVal.s b.get_object_hash) =
      some (("_id", MVal.oid col.nextId) :: b.to_mongo_document) := by
  unfold Collection.find_one_eq Collection.insert_one
  rw [List.find?_append]
  unfold Collection.find_one_eq at h
  rw [h]
  simp [List.find?, lookup_unique_id_business]

/-- After `insert_one` of a review document, the dedup probe for its hash
succeeds. -/
lemma find_some_after_insert_review {col : Collection} (r : Review)
    (h : col.find_one_eq "unique_id" (MVal.s r.get_object_hash) = none) :
    (col.insert_one r.to_mongo_document).find_one_eq "unique_id"
        (MVal.s r.get_object_hash) =
      some (("_id", MVal.oid col.nextId) :: r.to_mongo_document) := by
  unfold Collection.find_one_eq Collection.insert_one
  rw [List.find?_append]
  unfold Collection.find_one_eq at h
  rw [h]
  simp [List.find?, lookup_unique_id_review]

/-! ## Claim C3: hash determinism -/

/-- Claim C3: for records of the same type agreeing on the identity field
subset (both fields for `Business`; business name, reviewer, title, body and
rating for `Review`) the identity hashes agree, whatever the remaining
fields hold — in particular two `Review`s differing only in review date
and/or visit date (or in the business URL, which the hash also omits) share
a hash.  Insertion order of fields cannot influence the hash because the
serialization is emitted with sorted keys. -/
theorem hash_determinism :
    (∀ b1 b2 : Business, b1.business_name = b2.business_name →
       b1.business_url = b2.business_url →
       b1.get_object_hash = b2.get_object_hash) ∧
    (∀ r1 r2 : Review, r1.business.business_name = r2.business.business_name →
       r1.reviewer = r2.reviewer → r1.review_title = r2.review_title →
       r1.review_text = r2.review_text → r1.review_rating = r2.review_rating →
       r1.get_object_hash = r2.get_object_hash) := by
  constructor
  · intro b1 b2 h1 h2
    simp [Business.get_object_hash, Business.hashInput, h1, h2]
  · intro r1 r2 h1 h2 h3 h4 h5
    simp [Review.get_object_hash, Review.hashInput, h1, h2, h3, h4, h5]

/-- Witness for C3: two reviews differing in review date, visit date and
business URL, but agreeing on the identity subset, hash identically. -/
theorem hash_determinism_witness :
    Review.get_object_hash
        ⟨⟨"Cafe Luna", "https://www.tripadvisor.com/a"⟩, "bob",
          some ⟨2023, 1, 1⟩, none, "Great", "Nice place", 5⟩ =
      Review.get_object_hash
        ⟨⟨"Cafe Luna", "https://www.tripadvisor.com/b"⟩, "bob",
          some ⟨2024, 2, 2⟩, some ⟨2024, 2, 1⟩, "Great", "Nice place", 5⟩ :=
  hash_determinism.2 _ _ rfl rfl rfl rfl rfl

/-! ## Claim C4: idempotent insert-if-absent -/

/-- Claim C4: inserting a record whose hash is absent from the store returns
`true`; immediately reinserting the same record returns `false` and leaves
the store untouched; afterwards exactly one stored document carries the
hash.  Stated for both `insert_business` and `insert_review`. -/
theorem insert_if_absent_idempotent :
    (∀ (col : Collection) (b : Business),
      (∀ d ∈ col.docs, ¬ d.lookup "unique_id" = some (MVal.s b.get_object_hash)) →
      (insert_business col b).1 = true ∧
      insert_business (insert_business col b).2 b = (false, (insert_business col b).2) ∧
      countHash (insert_business col b).2 b.get_object_hash = 1) ∧
    (∀ (col : Collection) (r : Review),
      (∀ d ∈ col.docs, ¬ d.lookup "unique_id" = some (MVal.s r.get_object_hash)) →
      (insert_review col r).1 = true ∧
      insert_review (insert_review col r).2 r = (false, (insert_review col r).2) ∧
      countHash (insert_review col r).2 r.get_object_hash = 1) := by
  constructor
  · intro col b habs
    have hfind := find_none_of_all_business habs
    have hstep : insert_business col b = (true, col.insert_one b.to_mongo_document) := by
      simp [insert_business, hfind]
    refine ⟨by simp [hstep], ?_, ?_⟩
    · rw [hstep]
      simp [insert_business, find_some_after_insert_business b hfind]
    · rw [hstep]
      simp [countHash_insert_one_business, countHash_eq_zero_of_find_none hfind]
  · intro col r habs
    have hfind := find_none_of_all_review habs
    have hstep : insert_review col r = (true, col.insert_one r.to_mongo_document) := by
      simp [insert_review, hfind]
    refine ⟨by simp [hstep], ?_, ?_⟩
    · rw [hstep]
      simp [insert_review, find_some_after_insert_review r hfind]
    · rw [hstep]
      simp [countHash_insert_one_review, countHash_eq_zero_of_find_none hfind]

/-- Witness for C4: a concrete review inserted twice into an empty store
returns `true` then `false` and is stored once. -/
theorem insert_if_absent_idempotent_witness :
    (insert_review ⟨0, []⟩
        ⟨⟨"Cafe Luna", "https://www.tripadvisor.com/a"⟩, "bob", none, none,
          "Great", "Nice place", 5⟩).1 = true ∧
    insert_review
        (insert_review ⟨0, []⟩
          ⟨⟨"Cafe Luna", "https://www.tripadvisor.com/a"⟩, "bob", none, none,
            "Great", "Nice place", 5⟩).2
        ⟨⟨"Cafe Luna", "https://www.tripadvisor.com/a"⟩, "bob", none, none,
          "Great", "Nice place", 5⟩ =
      (false,
        (insert_review ⟨0, []⟩
          ⟨⟨"Cafe Luna", "https://www.tripadvisor.com/a"⟩, "bob", none, none,
            "Great", "Nice place", 5⟩).2) ∧
    countHash
        (insert_review ⟨0, []⟩
          ⟨⟨"Cafe Luna", "https://www.tripadvisor.com/a"⟩, "bob", none, none,
            "Great", "Nice place", 5⟩).2
        (Review.get_object_hash
          ⟨⟨"Cafe Luna", "https://www.tripadvisor.com/a"⟩, "bob", none, none,
            "Great", "Nice place", 5⟩) = 1 :=
  insert_if_absent_idempotent.2 ⟨0, []⟩ _ (by decide)

/-! ## Claim C9: list-by-type with metadata stripped -/

/-- Claim C9: `get_businesses`/`get_reviews` return exactly the stored
documents whose `type` field equals the requested discriminator, each with
the internal keys `_id`, `unique_id` and `type` removed and every other key
preserved. -/
theorem list_by_type_strips_metadata :
    (∀ (col : Collection) (doc : MDoc),
      (doc ∈ get_businesses col ↔
        ∃ d ∈ col.docs,
          d.lookup "type" = some (MVal.s MongoDocumentTypeBUSINESS) ∧ doc = stripDoc d) ∧
      (doc ∈ get_reviews col ↔
        ∃ d ∈ col.docs,
          d.lookup "type" = some (MVal.s MongoDocumentTypeREVIEW) ∧ doc = stripDoc d)) ∧
    (∀ col : Collection,
      (get_businesses col).length =
        (col.docs.filter
          (fun d => d.lookup "type" == some (MVal.s MongoDocumentTypeBUSINESS))).length ∧
      (get_reviews col).length =
        (col.docs.filter
          (fun d => d.lookup "type" == some (MVal.s MongoDocumentTypeREVIEW))).length) ∧
    (∀ (d : MDoc) (k : String) (v : MVal),
      (k, v) ∈ stripDoc d ↔
        ((k, v) ∈ d ∧ k ≠ "_id" ∧ k ≠ "unique_id" ∧ k ≠ "type")) := by
  refine ⟨?_, ?_, ?_⟩
  · intro col doc
    constructor
    · constructor
      · intro hm
        unfold get_businesses at hm
        obtain ⟨d, hd, hfd⟩ := List.mem_map.mp hm
        obtain ⟨hdm, hp⟩ := List.mem_filter.mp hd
        exact ⟨d, hdm, by simpa using hp, hfd.symm⟩
      · rintro ⟨d, hdm, hty, hdoc⟩
        unfold get_businesses
        exact List.mem_map.mpr ⟨d, List.mem_filter.mpr ⟨hdm, by simpa using hty⟩, hdoc.symm⟩
    · constructor
      · intro hm
        unfold get_reviews at hm
        obtain ⟨d, hd, hfd⟩ := List.mem_map.mp hm
        obtain ⟨hdm, hp⟩ := List.mem_filter.mp hd
        exact ⟨d, hdm, by simpa using hp, hfd.symm⟩
      · rintro ⟨d, hdm, hty, hdoc⟩
        unfold get_reviews
        exact List.mem_map.mpr ⟨d, List.mem_filter.mpr ⟨hdm, by simpa using hty⟩, hdoc.symm⟩
  · intro col
    constructor
    · unfold get_businesses
      exact List.length_map _ _
    · unfold get_reviews
      exact List.length_map _ _
  · intro d k v
    simp [stripDoc, List.mem_filter, and_assoc]

/-- Witness for C9: a two-document store; the business query returns the
business document with metadata stripped and the non-metadata key kept. -/
theorem list_by_type_strips_metadata_witness :
    ([("business_name", MVal.s "Cafe Luna")] ∈
      get_businesses
        ⟨2,
          [[("_id", MVal.oid 0), ("unique_id", MVal.s "h1"),
            ("type", MVal.s "business"), ("business_name", MVal.s "Cafe Luna")],
           [("_id", MVal.oid 1), ("unique_id", MVal.s "h2"),
            ("type", MVal.s "review"), ("reviewer", MVal.s "bob")]]⟩) ∧
    (("business_name", MVal.s "Cafe Luna") ∈
        stripDoc
          [("_id", MVal.oid 0), ("unique_id", MVal.s "h1"),
           ("type", MVal.s "business"), ("business_name", MVal.s "Cafe Luna")] ∧
      ¬ ("unique_id", MVal.s "h1") ∈
          stripDoc
            [("_id", MVal.oid 0), ("unique_id", MVal.s "h1"),
             ("type", MVal.s "business"), ("business_name", MVal.s "Cafe Luna")]) :=
  ⟨((list_by_type_strips_metadata.1 _ _).1).mpr
      ⟨[("_id", MVal.oid 0), ("unique_id", MVal.s "h1"),
        ("type", MVal.s "business"), ("business_name", MVal.s "Cafe Luna")],
        by decide, by decide, by decide⟩,
    (list_by_type_strips_metadata.2.2 _ _ _).mpr (by decide),
    fun hmem => by
      have := (list_by_type_strips_metadata.2.2 _ _ _).mp hmem
      revert this
      decide⟩

/-! ## Claim C1: the dedup probe ignores the document-type discriminator -/

/-- A review used to refute the claimed hash-and-type probe. -/
def rCex : Review :=
  ⟨⟨"Cafe Luna", "https://www.tripadvisor.com/r1"⟩, "bob", none, none,
    "Great", "Nice place", 5⟩

/-- A store holding a single document that carries `rCex`'s identity hash
but the `business` type tag — no stored document matches both the hash and
the `review` discriminator. -/
def colCex : Collection :=
  ⟨1, [[("unique_id", MVal.s rCex.get_object_hash),
        ("type", MVal.s MongoDocumentTypeBUSINESS)]]⟩

/-- Counterexample to claim C1 as stated: no document of `colCex` matches
both `rCex`'s identity hash and the `review` discriminator, so the claimed
behaviour ("otherwise inserts the serialized document and returns true")
requires the insert to write and return `true` — but `insert_review`
returns `false` and leaves the store unchanged, because its probe matches
the identity hash alone. -/
theorem insert_probe_ignores_type_cex :
    (∀ d ∈ colCex.docs,
      ¬ (d.lookup "unique_id" = some (MVal.s rCex.get_object_hash) ∧
          d.lookup "type" = some (MVal.s MongoDocumentTypeREVIEW))) ∧
    insert_review colCex rCex = (false, colCex) := by
  constructor
  · decide
  · rfl

/-- Claim C1 (amended): the dedup probe of `insert_business`/`insert_review`
matches on the identity hash alone, with no document-type discriminator: the
insert returns `false` without writing exactly when any stored document —
of either type — carries the record's hash, and otherwise appends the
serialized document and returns `true`.  Consequently a store whose hashes
are unique stays that way (so in particular it never holds two documents
with the same identity hash and the same document type). -/
theorem insert_if_absent_queries_hash_only :
    (∀ (col : Collection) (b : Business),
      ((∃ d ∈ col.docs, d.lookup "unique_id" = some (MVal.s b.get_object_hash)) →
        insert_business col b = (false, col)) ∧
      ((∀ d ∈ col.docs, ¬ d.lookup "unique_id" = some (MVal.s b.get_object_hash)) →
        insert_business col b = (true, col.insert_one b.to_mongo_document))) ∧
    (∀ (col : Collection) (r : Review),
      ((∃ d ∈ col.docs, d.lookup "unique_id" = some (MVal.s r.get_object_hash)) →
        insert_review col r = (false, col)) ∧
      ((∀ d ∈ col.docs, ¬ d.lookup "unique_id" = some (MVal.s r.get_object_hash)) →
        insert_review col r = (true, col.insert_one r.to_mongo_document))) ∧
    (∀ col : Collection, noDupHash col →
      (∀ b : Business, noDupHash (insert_business col b).2) ∧
      (∀ r : Review, noDupHash (insert_review col r).2)) := by
  refine ⟨?_, ?_, ?_⟩
  · intro col b
    constructor
    · intro hex
      have hsome : (col.find_one_eq "unique_id" (MVal.s b.get_object_hash)).isSome := by
        refine List.find?_isSome.mpr ?_
        obtain ⟨d, hd, hl⟩ := hex
        exact ⟨d, hd, by simp [hl]⟩
      cases hfind : col.find_one_eq "unique_id" (MVal.s b.get_object_hash) with
      | some d => simp [insert_business, hfind]
      | none => simp [hfind] at hsome
    · intro habs
      simp [insert_business, find_none_of_all_business habs]
  · intro col r
    constructor
    · intro hex
      have hsome : (col.find_one_eq "unique_id" (MVal.s r.get_object_hash)).isSome := by
        refine List.find?_isSome.mpr ?_
        obtain ⟨d, hd, hl⟩ := hex
        exact ⟨d, hd, by simp [hl]⟩
      cases hfind : col.find_one_eq "unique_id" (MVal.s r.get_object_hash) with
      | some d => simp [insert_review, hfind]
      | none => simp [hfind] at hsome
    · intro habs
      simp [insert_review, find_none_of_all_review habs]
  · intro col hnd
    exact ⟨fun b => noDupHash_insert_business col b hnd,
           fun r => noDupHash_insert_review col r hnd⟩

/-- Witness for amended C1: on `colCex`, whose only document carries the
hash under the `business` type, `insert_review` of `rCex` is refused with no
write; on the empty store the insert writes and reports `true`. -/
theorem insert_if_absent_queries_hash_only_witness :
    insert_review colCex rCex = (false, colCex) ∧
    insert_review ⟨0, []⟩ rCex =
      (true, Collection.insert_one ⟨0, []⟩ rCex.to_mongo_document) :=
  ⟨(insert_if_absent_queries_hash_only.2.1 colCex rCex).1
      ⟨[("unique_id", MVal.s rCex.get_object_hash),
        ("type", MVal.s MongoDocumentTypeBUSINESS)], by decide, by decide⟩,
    (insert_if_absent_queries_hash_only.2.1 ⟨0, []⟩ rCex).2 (by decide)⟩

/-! ## Claim C5: per-record isolation of review extraction -/

/-- Splitting a list into the candidates a partial function accepts and the
ones it rejects accounts for every element. -/
lemma length_filterMap_add_countNone {α β : Type} (f : α → Option β) (l : List α) :
    (l.filterMap f).length + (l.filter (fun a => (f a).isNone)).length = l.length := by
  induction l with
  | nil => simp
  | cons a l ih =>
      cases hfa : f a <;> simp [List.filterMap_cons, hfa, List.filter_cons] <;> omega

/-- Claim C5: on a page with `N` candidate review cards of which `M < N`
fail some required lookup or parse, `get_all_reviews_in_page` returns
exactly `N - M` reviews, each produced by a successfully parsed candidate
(so never by one of the `M` malformed cards), and the malformed cards do not
abort the page. -/
theorem review_extraction_isolation (biz : BizDict) (cards : List Card)
    (arrows : List Arrow) :
    (cards.filter
        (fun c => (extractCard ⟨biz.business_name, biz.business_url⟩ c).isNone)).length <
      cards.length →
    (get_all_reviews_in_page biz ⟨cards, arrows⟩).length =
        cards.length -
          (cards.filter
            (fun c =>
              (extractCard ⟨biz.business_name, biz.business_url⟩ c).isNone)).length ∧
    ∀ r ∈ get_all_reviews_in_page biz ⟨cards, arrows⟩,
      ∃ c ∈ cards, extractCard ⟨biz.business_name, biz.business_url⟩ c = some r := by
  intro hM
  constructor
  · have hsum :=
      length_filterMap_add_countNone
        (extractCard ⟨biz.business_name, biz.business_url⟩) cards
    have hpage : get_all_reviews_in_page biz ⟨cards, arrows⟩ =
        cards.filterMap (extractCard ⟨biz.business_name, biz.business_url⟩) := rfl
    rw [hpage]
    omega
  · intro r hr
    exact List.mem_filterMap.mp hr

/-- A review card every lookup and parse of which succeeds. -/
def goodCard : Card :=
  ⟨some "alice", some "Jan 2023", some "Great", some "Nice place",
    some (some "4.7 of 5 bubbles"), some "Written April 3, 2023"⟩

/-- A review card whose reviewer lookup failed (and so is dropped). -/
def badCard : Card := ⟨none, some "Jan 2023", some "Great", some "Nice place",
  some (some "4.7 of 5 bubbles"), some "Written April 3, 2023"⟩

/-- The business dict the witnesses crawl under. -/
def bizW : BizDict := ⟨"Cafe Luna", "https://www.tripadvisor.com/c"⟩

/-- Witness for C5: a page with one well-formed and one malformed card
yields exactly one review, produced by a well-formed candidate. -/
theorem review_extraction_isolation_witness :
    (get_all_reviews_in_page bizW ⟨[goodCard, badCard], []⟩).length =
        [goodCard, badCard].length -
          ([goodCard, badCard].filter
            (fun c =>
              (extractCard ⟨bizW.business_name, bizW.business_url⟩ c).isNone)).length ∧
    ∀ r ∈ get_all_reviews_in_page bizW ⟨[goodCard, badCard], []⟩,
      ∃ c ∈ [goodCard, badCard],
        extractCard ⟨bizW.business_name, bizW.business_url⟩ c = some r :=
  review_extraction_isolation bizW [goodCard, badCard] [] (by decide)

/-! ## Claim C7: the two date formats -/

/-- A failed review-date parse drops the card. -/
lemma extractCard_none_of_review_date {b : Business} {c : Card} {t : String}
    (hd : c.dateDivText = some t) (hp : reviewDatePipeline t = none) :
    extractCard b c = none := by
  cases hu : c.username with
  | none => simp [extractCard, hu]
  | some u => simp [extractCard, hu, hd, hp]

/-- A failed visit-date parse drops the card. -/
lemma extractCard_none_of_visit_date {b : Business} {c : Card} {t : String}
    (hv : c.visitText = some t) (hp : visitDatePipeline t = none) :
    extractCard b c = none := by
  cases hu : c.username with
  | none => simp [extractCard, hu]
  | some u =>
      cases hd : c.dateDivText with
      | none => simp [extractCard, hu, hd]
      | some rdText =>
          cases hrd : reviewDatePipeline rdText with
          | none => simp [extractCard, hu, hd, hrd]
          | some rdate =>
              cases ht : c.titleText with
              | none => simp [extractCard, hu, hd, hrd, ht]
              | some title =>
                  cases hb : c.bodyText with
                  | none => simp [extractCard, hu, hd, hrd, ht, hb]
                  | some body =>
                      cases hsvg : c.ratingSvg with
                      | none => simp [extractCard, hu, hd, hrd, ht, hb, hsvg]
                      | some aria0 =>
                          cases haria : aria0 with
                          | none => simp [extractCard, hu, hd, hrd, ht, hb, hsvg, haria]
                          | some aria =>
                              cases hra : ratingFromAria aria with
                              | none =>
                                  simp [extractCard, hu, hd, hrd, ht, hb, hsvg, haria, hra]
                              | some rating =>
                                  simp [extractCard, hu, hd, hrd, ht, hb, hsvg, haria,
                                        hra, hv, hp]

/-- Claim C7: the review-date pipeline parses `"Jan 2023"` to the date
2023-01-01 (day defaulted to 1); the visit-date pipeline strips the
`"Written "` literal from `"Written April 3, 2023"` and parses the rest to
2023-04-03; and a date string either pipeline rejects makes `extractCard`
drop that candidate rather than fail. -/
theorem date_parsing_pipelines :
    reviewDatePipeline "Jan 2023" = some ⟨2023, 1, 1⟩ ∧
    visitDatePipeline "Written April 3, 2023" = some ⟨2023, 4, 3⟩ ∧
    (∀ (b : Business) (c : Card) (t : String), c.dateDivText = some t →
       reviewDatePipeline t = none → extractCard b c = none) ∧
    (∀ (b : Business) (c : Card) (t : String), c.visitText = some t →
       visitDatePipeline t = none → extractCard b c = none) := by
  refine ⟨rfl, rfl, ?_, ?_⟩
  · intro b c t hd hp
    exact extractCard_none_of_review_date hd hp
  · intro b c t hv hp
    exact extractCard_none_of_visit_date hv hp

/-- Witness for C7: concrete malformed date texts drop the concrete cards
they sit in. -/
theorem date_parsing_pipelines_witness :
    extractCard ⟨"Cafe Luna", "https://www.tripadvisor.com/c"⟩
        ⟨some "alice", some "sometime last year", some "Great", some "Nice place",
          some (some "4.7 of 5 bubbles"), some "Written April 3, 2023"⟩ = none ∧
    extractCard ⟨"Cafe Luna", "https://www.tripadvisor.com/c"⟩
        ⟨some "alice", some "Jan 2023", some "Great", some "Nice place",
          some (some "4.7 of 5 bubbles"), some "Written whenever"⟩ = none :=
  ⟨date_parsing_pipelines.2.2.1 _ _ "sometime last year" rfl (by rfl),
    date_parsing_pipelines.2.2.2 _ _ "Written whenever" rfl (by rfl)⟩

/-! ## Claim C8: rating extraction -/

/-- Does the pattern occur as a contiguous substring of the input? -/
def listIsInfix (pat : List Char) : List Char → Bool
  | [] => listStartsWith pat []
  | c :: cs => listStartsWith pat (c :: cs) || listIsInfix pat cs

/-- Counterexample to claim C8 as stated: the label
`"3.0 offered 4.7 of 5 bubbles"` contains the substring
`"4.7 of 5 bubbles"`, yet the extracted rating is `3`, not `4`: `re.search`
takes the *leftmost* `[\d.]+` run followed by optional whitespace and
`"of"`, which here is `"3.0"` (followed by `" offered"`). -/
theorem rating_label_contains_cex :
    listIsInfix "4.7 of 5 bubbles".toList
        "3.0 offered 4.7 of 5 bubbles".toList = true ∧
    ratingFromAria "3.0 offered 4.7 of 5 bubbles" = some 3 := by
  constructor
  · decide
  · rfl

/-- Claim C8 (amended): the rating is `int(float(g))` for `g` the leftmost
`[\d.]+` run of the label that is followed by optional whitespace and the
literal `of`; whenever that leftmost match is `"4.7"` — as in the label
`"4.7 of 5 bubbles"` itself — the rating is the integer 4: the decimal is
truncated, not rounded. -/
theorem rating_truncation_amended :
    (∀ aria : String, ratingSearch aria.toList = some ['4', '.', '7'] →
       ratingFromAria aria = some 4) ∧
    intFloatTrunc ['4', '.', '7'] = some 4 := by
  constructor
  · intro aria hsearch
    unfold ratingFromAria
    rw [hsearch]
    rfl
  · rfl

/-- Witness for amended C8: the label `"4.7 of 5 bubbles"` yields rating
4. -/
theorem rating_truncation_amended_witness :
    ratingFromAria "4.7 of 5 bubbles" = some 4 :=
  rating_truncation_amended.1 "4.7 of 5 bubbles" (by rfl)

/-! ## Crawl-loop lemmas -/

/-- The arrow scan only ever returns an arrow labelled `"Next page"`. -/
lemma findNextArrowLoop_label :
    ∀ (l : List Arrow) (a : Arrow),
      findNextArrowLoop l = Except.ok (some a) → a.ariaLabel = some "Next page" := by
  intro l
  induction l with
  | nil => intro a ha; simp [findNextArrowLoop] at ha
  | cons x xs ih =>
      intro a ha
      cases hx : x.ariaLabel with
      | none => simp [findNextArrowLoop, hx] at ha
      | some lab =>
          by_cases hlab : lab = "Next page"
          · rw [findNextArrowLoop, hx] at ha
            simp [hlab] at ha
            rw [← ha, hx, hlab]
          · rw [findNextArrowLoop, hx] at ha
            simp [hlab] at ha
            exact ih a ha

/-- The head fetch fact of a well-formed chain. -/
lemma bchain_fetch_head {w : BWorld} {u : String} {us : List String} {p : BPage}
    {ps : List BPage} (hch : BChain w u us p ps) : fetchB w u = Except.ok p := by
  cases hch <;> assumption

/-- The head fetch fact of an error-terminated chain. -/
lemma berrchain_fetch_head {w : BWorld} {u : String} {us : List String} {p : BPage}
    {ps : List BPage} (hch : BErrChain w u us p ps) : fetchB w u = Except.ok p := by
  cases hch <;> assumption

/-- Running the guarded listing loop along a well-formed chain: every page's
records are appended, the chain's URLs are fetched in order, and the loop
ends on the missing-arrow break. -/
lemma crawlB_of_chain {w : BWorld} {u : String} {us : List String} {p : BPage}
    {ps : List BPage} (hch : BChain w u us p ps) :
    ∀ fuel : Nat, ps.length < fuel → ∀ (acc : List Business) (col : Collection)
      (tr : List String),
      ∃ col2, crawlB w fuel p acc col tr =
        (acc ++ pagesExtract (p :: ps), col2, tr ++ us, CrawlExit.finished) := by
  induction hch with
  | last u p hfetch hok hnone =>
      intro fuel hfuel acc col tr
      obtain ⟨found, hL⟩ := hok
      cases fuel with
      | zero => omega
      | succ f =>
          refine ⟨found.foldl (fun c b => (insert_business c b).2) col, ?_⟩
          simp [crawlB, hL, hnone, pagesExtract, pageExtractOrNil]
  | step u u2 us p p2 ps a h hfetch hok harrow hhref hurl hch2 ih =>
      intro fuel hfuel acc col tr
      cases fuel with
      | zero => simp at hfuel
      | succ f =>
          obtain ⟨found, hL⟩ := hok
          have hf2 : fetchB w (TRIP_ADVISOR_URL ++ h) = Except.ok p2 := by
            rw [hurl]; exact bchain_fetch_head hch2
          obtain ⟨col2, hrec⟩ :=
            ih f (by simpa using Nat.lt_of_succ_lt_succ hfuel)
              (acc ++ found) (found.foldl (fun c b => (insert_business c b).2) col)
              (tr ++ [TRIP_ADVISOR_URL ++ h])
          refine ⟨col2, ?_⟩
          rw [crawlB, hL]
          simp only [harrow, hhref, hf2]
          rw [hrec, hurl]
          simp [pagesExtract, pageExtractOrNil, hL]

/-- Running the guarded listing loop along an error-terminated chain: the
loop still returns, keeping the records of the pages before the failure,
with the failing page contributing nothing. -/
lemma crawlB_of_errchain {w : BWorld} {u : String} {us : List String} {p : BPage}
    {ps : List BPage} (hch : BErrChain w u us p ps) :
    ∀ fuel : Nat, ps.length < fuel → ∀ (acc : List Business) (col : Collection)
      (tr : List String),
      ∃ col2, crawlB w fuel p acc col tr =
        (acc ++ pagesExtract (p :: ps), col2, tr ++ us, CrawlExit.errored) := by
  induction hch with
  | last u p hfetch herr =>
      intro fuel hfuel acc col tr
      cases fuel with
      | zero => omega
      | succ f =>
          refine ⟨col, ?_⟩
          simp [crawlB, herr, pagesExtract, pageExtractOrNil]
  | step u u2 us p p2 ps a h hfetch hok harrow hhref hurl hch2 ih =>
      intro fuel hfuel acc col tr
      cases fuel with
      | zero => simp at hfuel
      | succ f =>
          obtain ⟨found, hL⟩ := hok
          have hf2 : fetchB w (TRIP_ADVISOR_URL ++ h) = Except.ok p2 := by
            rw [hurl]; exact berrchain_fetch_head hch2
          obtain ⟨col2, hrec⟩ :=
            ih f (by simpa using Nat.lt_of_succ_lt_succ hfuel)
              (acc ++ found) (found.foldl (fun c b => (insert_business c b).2) col)
              (tr ++ [TRIP_ADVISOR_URL ++ h])
          refine ⟨col2, ?_⟩
          rw [crawlB, hL]
          simp only [harrow, hhref, hf2]
          rw [hrec, hurl]
          simp [pagesExtract, pageExtractOrNil, hL]

/-! ## Claim C6: pagination walks the chain once and stops -/

/-- Claim C6: the next link is chosen by its `aria-label` being exactly
`"Next page"` (never by its position among the arrow controls), and over a
finite chain of pages of which only the last offers no `"Next page"` arrow
the listing crawl fetches precisely the chain's URLs, in order, each once
(the URL list being duplicate-free), ending in the `finished` exit. -/
theorem pagination_visits_each_page_once :
    (∀ (arrows : List Arrow) (a : Arrow),
      find_next_page_arrow arrows = Except.ok (some a) →
      a.ariaLabel = some "Next page") ∧
    (∀ (w : BWorld) (u : String) (us : List String) (p : BPage) (ps : List BPage)
      (fuel : Nat) (col : Collection),
      BChain w u us p ps → ps.length < fuel → (u :: us).Nodup →
      ∃ bs col2,
        get_and_store_businesses w fuel col u =
            Except.ok (bs, col2, u :: us, CrawlExit.finished) ∧
          (u :: us).Nodup) := by
  constructor
  · intro arrows a ha
    exact findNextArrowLoop_label _ a ha
  · intro w u us p ps fuel col hch hfuel hnd
    obtain ⟨col2, hrun⟩ := crawlB_of_chain hch fuel hfuel [] col [u]
    refine ⟨pagesExtract (p :: ps), col2, ?_, hnd⟩
    rw [get_and_store_businesses, bchain_fetch_head hch]
    simpa using hrun

/-- A `"Previous page"` arrow, listed before the next arrow to show the
selection is by label. -/
def arrowPrev : Arrow := ⟨next_page_arrow_class, some "Previous page", some "/p0"⟩

/-- The `"Next page"` arrow of the first witness page. -/
def arrowNext : Arrow := ⟨next_page_arrow_class, some "Next page", some "/p2"⟩

/-- First witness listing page: one listing, a previous arrow and a next
arrow. -/
def pageB1 : BPage := ⟨[⟨some "1. Cafe Luna", some "/biz1"⟩], [arrowPrev, arrowNext]⟩

/-- Second witness listing page: one listing, only a previous arrow. -/
def pageB2 : BPage := ⟨[⟨some "2. Bistro Sol", some "/biz2"⟩], [arrowPrev]⟩

/-- The two-page witness world. -/
def wB2 : BWorld :=
  ⟨[("https://www.tripadvisor.com/p1", pageB1),
    ("https://www.tripadvisor.com/p2", pageB2)]⟩

/-- The witness chain through `wB2`. -/
lemma chainWB2 :
    BChain wB2 "https://www.tripadvisor.com/p1" ["https://www.tripadvisor.com/p2"]
      pageB1 [pageB2] := by
  refine BChain.step _ _ _ _ _ _ arrowNext "/p2" rfl ⟨_, rfl⟩ rfl rfl rfl ?_
  exact BChain.last _ _ rfl ⟨_, rfl⟩ rfl

/-- Witness for C6: the concrete two-page world is walked front to back,
each page once, ending `finished`. -/
theorem pagination_visits_each_page_once_witness :
    ∃ bs col2,
      get_and_store_businesses wB2 2 ⟨0, []⟩ "https://www.tripadvisor.com/p1" =
          Except.ok (bs, col2,
            ["https://www.tripadvisor.com/p1", "https://www.tripadvisor.com/p2"],
            CrawlExit.finished) ∧
        (["https://www.tripadvisor.com/p1",
          "https://www.tripadvisor.com/p2"] : List String).Nodup :=
  pagination_visits_each_page_once.2 wB2 "https://www.tripadvisor.com/p1"
    ["https://www.tripadvisor.com/p2"] pageB1 [pageB2] 2 ⟨0, []⟩ chainWB2
    (by decide) (by decide)

/-! ## Claim C2: failure policy of the two crawls -/

/-- A reviews page holding one good card and a next arrow into a URL the
world cannot serve. -/
def pageRCex : RPage := ⟨[goodCard], [⟨next_page_arrow_class, some "Next page", some "/missing"⟩]⟩

/-- The reviews world for the counterexample. -/
def wRCex : RWorld := ⟨[("https://www.tripadvisor.com/biz", pageRCex)]⟩

/-- Counterexample to claim C2 as stated: in `get_and_store_reviews` an
exception while processing a page propagates to the caller instead of
terminating the crawl at DONE — here the crawl extracts and stores one
review from the first page and then fails navigating to the next page, and
the whole invocation raises, returning nothing (the accumulated review is
lost). -/
theorem reviews_exception_propagates_cex :
    get_and_store_reviews wRCex 3 ⟨0, []⟩
        [⟨"Cafe Luna", "https://www.tripadvisor.com/biz"⟩] = Except.error () := by
  rfl

/-- Claim C2 (amended): only `get_and_store_businesses` implements the
catch-at-DONE policy — an exception while processing a fetched listing page
ends the crawl normally with the records accumulated so far; in
`get_and_store_reviews` both a failed navigation to a business URL and an
exception inside the per-business pagination loop propagate to the
caller. -/
theorem crawl_failure_policy :
    (∀ (w : BWorld) (u : String) (us : List String) (p : BPage) (ps : List BPage)
      (fuel : Nat) (col : Collection),
      BErrChain w u us p ps → ps.length < fuel →
      ∃ col2, get_and_store_businesses w fuel col u =
          Except.ok (pagesExtract (p :: ps), col2, u :: us, CrawlExit.errored)) ∧
    (∀ (w : RWorld) (fuel : Nat) (col : Collection) (biz : BizDict)
      (rest : List BizDict),
      fetchR w biz.business_url = Except.error () →
      get_and_store_reviews w fuel col (biz :: rest) = Except.error ()) ∧
    (∀ (w : RWorld) (fuel : Nat) (col : Collection) (biz : BizDict)
      (rest : List BizDict) (p : RPage),
      fetchR w biz.business_url = Except.ok p →
      crawlR w biz fuel p [] col [biz.business_url] = Except.error () →
      get_and_store_reviews w fuel col (biz :: rest) = Except.error ()) := by
  refine ⟨?_, ?_, ?_⟩
  · intro w u us p ps fuel col hch hfuel
    obtain ⟨col2, hrun⟩ := crawlB_of_errchain hch fuel hfuel [] col [u]
    refine ⟨col2, ?_⟩
    rw [get_and_store_businesses, berrchain_fetch_head hch]
    simpa using hrun
  · intro w fuel col biz rest hfetch
    rw [get_and_store_reviews, reviewsOuter, hfetch]
  · intro w fuel col biz rest p hfetch herr
    rw [get_and_store_reviews, reviewsOuter, hfetch]
    simp only [List.nil_append]
    rw [herr]

/-- First witness listing page of the error chain: a well-formed page
linking onwards. -/
def pageE1 : BPage := ⟨[⟨some "1. Cafe Luna", some "/biz1"⟩],
  [⟨next_page_arrow_class, some "Next page", some "/e2"⟩]⟩

/-- Second witness listing page: its single listing element is malformed,
so its extraction raises. -/
def pageE2 : BPage := ⟨[⟨none, none⟩], []⟩

/-- The witness world for the error chain. -/
def wE : BWorld :=
  ⟨[("https://www.tripadvisor.com/e1", pageE1),
    ("https://www.tripadvisor.com/e2", pageE2)]⟩

/-- The witness error chain through `wE`. -/
lemma errchainWE :
    BErrChain wE "https://www.tripadvisor.com/e1" ["https://www.tripadvisor.com/e2"]
      pageE1 [pageE2] := by
  refine BErrChain.step _ _ _ _ _ _ ⟨next_page_arrow_class, some "Next page", some "/e2"⟩
    "/e2" rfl ⟨_, rfl⟩ rfl rfl rfl ?_
  exact BErrChain.last _ _ rfl rfl

/-- Witness for amended C2: the listing crawl over `wE` returns normally
with the first page's record despite the second page's failure, and the two
review-side propagation statements fire on concrete worlds. -/
theorem crawl_failure_policy_witness :
    (∃ col2,
      get_and_store_businesses wE 2 ⟨0, []⟩ "https://www.tripadvisor.com/e1" =
        Except.ok (pagesExtract [pageE1, pageE2], col2,
          ["https://www.tripadvisor.com/e1", "https://www.tripadvisor.com/e2"],
          CrawlExit.errored)) ∧
    get_and_store_reviews ⟨[]⟩ 1 ⟨0, []⟩
        [⟨"Cafe Luna", "https://www.tripadvisor.com/gone"⟩] = Except.error () ∧
    get_and_store_reviews wRCex 3 ⟨0, []⟩
        [⟨"Cafe Luna", "https://www.tripadvisor.com/biz"⟩] = Except.error () :=
  ⟨crawl_failure_policy.1 wE "https://www.tripadvisor.com/e1"
      ["https://www.tripadvisor.com/e2"] pageE1 [pageE2] 2 ⟨0, []⟩ errchainWE
      (by decide),
    crawl_failure_policy.2.1 ⟨[]⟩ 1 ⟨0, []⟩
      ⟨"Cafe Luna", "https://www.tripadvisor.com/gone"⟩ [] rfl,
    crawl_failure_policy.2.2 wRCex 3 ⟨0, []⟩
      ⟨"Cafe Luna", "https://www.tripadvisor.com/biz"⟩ [] pageRCex rfl (by rfl)⟩

/-! ## Claim C10: extracted records are returned even when the insert
deduplicates -/

/-- Inserting a list of reviews keeps the store's hashes unique. -/
lemma noDupHash_foldl_insert_review (rs : List Review) :
    ∀ col : Collection, noDupHash col →
      noDupHash (rs.foldl (fun c r => (insert_review c r).2) col) := by
  induction rs with
  | nil => intro col hc; simpa using hc
  | cons r rs ih =>
      intro col hc
      simpa using ih (insert_review col r).2 (noDupHash_insert_review col r hc)

/-- Inserting a list of businesses keeps the store's hashes unique. -/
lemma noDupHash_foldl_insert_business (bs : List Business) :
    ∀ col : Collection, noDupHash col →
      noDupHash (bs.foldl (fun c b => (insert_business c b).2) col) := by
  induction bs with
  | nil => intro col hc; simpa using hc
  | cons b bs ih =>
      intro col hc
      simpa using ih (insert_business col b).2 (noDupHash_insert_business col b hc)

/-- Claim C10: a crawl iteration appends every successfully extracted record
to the returned list for *any* starting store — the booleans of the inserts
are never consulted — while the store itself keeps at most one document per
identity hash; so the returned list can repeat an identity hash the store
holds once. -/
theorem records_appended_regardless_of_insert :
    (∀ (w : BWorld) (elems : List BElem) (arrows : List Arrow)
      (found : List Business) (fuel : Nat) (acc : List Business)
      (col : Collection) (tr : List String),
      get_all_business_in_page ⟨elems, arrows⟩ = Except.ok found →
      find_next_page_arrow arrows = Except.ok none →
      ∃ col2, crawlB w (fuel + 1) ⟨elems, arrows⟩ acc col tr =
          (acc ++ found, col2, tr, CrawlExit.finished)) ∧
    (∀ (w : RWorld) (biz : BizDict) (cards : List Card) (arrows : List Arrow)
      (fuel : Nat) (acc : List Review) (col : Collection) (tr : List String),
      find_next_page_arrow arrows = Except.ok none →
      ∃ col2, crawlR w biz (fuel + 1) ⟨cards, arrows⟩ acc col tr =
          Except.ok (acc ++ get_all_reviews_in_page biz ⟨cards, arrows⟩, col2, tr,
            true)) ∧
    (∀ (col : Collection) (rs : List Review), noDupHash col →
      noDupHash (rs.foldl (fun c r => (insert_review c r).2) col)) ∧
    (∀ (col : Collection) (bs : List Business), noDupHash col →
      noDupHash (bs.foldl (fun c b => (insert_business c b).2) col)) := by
  refine ⟨?_, ?_, ?_, ?_⟩
  · intro w elems arrows found fuel acc col tr hL hnone
    exact ⟨found.foldl (fun c b => (insert_business c b).2) col,
      by simp [crawlB, hL, hnone]⟩
  · intro w biz cards arrows fuel acc col tr hnone
    refine ⟨(get_all_reviews_in_page biz ⟨cards, arrows⟩).foldl
      (fun c r => (insert_review c r).2) col, ?_⟩
    simp [crawlR, hnone]
  · intro col rs hc
    exact noDupHash_foldl_insert_review rs col hc
  · intro col bs hc
    exact noDupHash_foldl_insert_business bs col hc

/-- A listing page repeating the same listing element twice, with no next
arrow. -/
def dupPage : BPage :=
  ⟨[⟨some "1. Cafe Luna", some "/biz1"⟩, ⟨some "1. Cafe Luna", some "/biz1"⟩], []⟩

/-- Witness for C10: crawling the duplicate page returns both copies of the
record in the list while the store, seeded empty, still holds each hash at
most once. -/
theorem records_appended_regardless_of_insert_witness :
    (∃ col2, crawlB ⟨[]⟩ 1 dupPage [] ⟨0, []⟩ [] =
        ([⟨"Cafe Luna", TRIP_ADVISOR_URL ++ "/biz1"⟩,
          ⟨"Cafe Luna", TRIP_ADVISOR_URL ++ "/biz1"⟩], col2, [],
          CrawlExit.finished)) ∧
    noDupHash
      ([(⟨⟨"Cafe Luna", "u"⟩, "bob", none, none, "Great", "Nice place", 5⟩ : Review),
        ⟨⟨"Cafe Luna", "u"⟩, "bob", none, none, "Great", "Nice place", 5⟩].foldl
        (fun c r => (insert_review c r).2) ⟨0, []⟩) :=
  ⟨records_appended_regardless_of_insert.1 ⟨[]⟩ dupPage.businessElems [] _ 0 [] ⟨0, []⟩
      [] rfl rfl,
    records_appended_regardless_of_insert.2.2.1 ⟨0, []⟩ _
      (fun hs => by simp [countHash])⟩

end TripAdvisor
